import Mathlib

/-!
Verification development for the jmapd model layer
(`src/jmapd/model/mail.py`, `src/jmapd/model/core.py`).

Python strings are modelled as Lean `String` (or `List Char` where
character-level reasoning is needed), nullable values as `Option`, spyne
`AnyDict` id→bool maps as association lists `List (String × Bool)`, and
Python exceptions as `Option`/`Except` results.
-/

namespace Jmapd

/-! ## Leaf value types (mail.py) -/

/-- `EmailHeader` from mail.py: `{key: string, value: string}`; both fields
are `M(Unicode(default=''))` (mandatory). -/
structure EmailHeader where
  key : String
  value : String
deriving Repr, DecidableEq

/-- `EmailAddress` from mail.py: `{name: string, address: string}`, both
declared `M(Unicode(default=''))`.  At runtime the Python attributes may
still be `None`, which `is_empty` partially handles; we model the runtime
field values as `Option String`. -/
structure EmailAddress where
  name : Option String
  address : Option String
deriving Repr, DecidableEq

/-- Shallow embedding of `EmailAddress.is_empty` (mail.py lines 37-39):

    return (self.name is None and self.address is None) \
            or (len(self.name) == 0 and len(self.address) == 0)

Python `or`/`and` short-circuit; `len(None)` raises `TypeError`.  The
result is `some b` when the Python method returns the boolean `b`, and
`none` when it raises. -/
def EmailAddress.is_empty (a : EmailAddress) : Option Bool :=
  if a.name = none ∧ a.address = none then
    some true
  else
    match a.name with
    | none => none
    | some n =>
      if n.length = 0 then
        match a.address with
        | none => none
        | some ad => some (decide (ad.length = 0))
      else
        some false

/-- `EmailAddressGroup` from mail.py: `{name, addresses: Array(Unicode)}`. -/
structure EmailAddressGroup where
  name : String
  addresses : List String
deriving Repr, DecidableEq

/-- `EmailBodyValue` from mail.py: decoded text content of one MIME part. -/
structure EmailBodyValue where
  value : Option String
  is_encoding_problem : Bool := false
  is_truncated : Bool := false
deriving Repr, DecidableEq

/-! ## EmailBodyPart (mail.py lines 83-183): recursive MIME tree -/

/-- `EmailBodyPart` from mail.py.  `part_id`, `blob_id`, `name`, `charset`,
`disposition`, `cid`, `location` are nullable strings; `size` is a mandatory
unsigned integer; `headers` is `Array(EmailHeader)`; `language` a nullable
string array; `type` is mandatory; `subParts` is a nullable array of
`EmailBodyPart` (spyne `SelfReference`). -/
inductive EmailBodyPart : Type where
  | mk
      (part_id : Option String)
      (blob_id : Option String)
      (size : Nat)
      (headers : List EmailHeader)
      (name : Option String)
      (type : String)
      (charset : Option String)
      (disposition : Option String)
      (cid : Option String)
      (language : Option (List String))
      (location : Option String)
      (subParts : Option (List EmailBodyPart))
deriving Repr

def EmailBodyPart.part_id : EmailBodyPart → Option String
  | .mk v _ _ _ _ _ _ _ _ _ _ _ => v

def EmailBodyPart.blob_id : EmailBodyPart → Option String
  | .mk _ v _ _ _ _ _ _ _ _ _ _ => v

def EmailBodyPart.type : EmailBodyPart → String
  | .mk _ _ _ _ _ v _ _ _ _ _ _ => v

def EmailBodyPart.subParts : EmailBodyPart → Option (List EmailBodyPart)
  | .mk _ _ _ _ _ _ _ _ _ _ _ v => v

/-- Python `s.startswith(p)`, expressed on character data so that it
evaluates by kernel reduction. -/
def strStartsWith (s p : String) : Bool :=
  p.data.isPrefixOf s.data

/-- A part's type is `multipart/*` when its `type` string starts with
`multipart/` (mail.py docstrings of `partId`, `blobId` and `subParts`). -/
def EmailBodyPart.isMultipart (p : EmailBodyPart) : Bool :=
  strStartsWith p.type "multipart/"

/-- The `sub_parts` children actually present: `None` and `[]` both mean no
children. -/
def EmailBodyPart.children (p : EmailBodyPart) : List EmailBodyPart :=
  p.subParts.getD []

/-- Modelled from the spec: the MIME Body Validator's local checks on a
single node (spec §4.1 checks (1) and (2); no validator code exists under
src/, only the docstring invariants on `partId`/`blobId`/`subParts`):
a `multipart/*` node must have `part_id = null`, `blob_id = null` and a
non-empty `sub_parts`; every other node must have both ids present and no
`sub_parts`. -/
def EmailBodyPart.nodeOk (p : EmailBodyPart) : Bool :=
  if p.isMultipart then
    p.part_id = none && p.blob_id = none && !p.children.isEmpty
  else
    p.part_id.isSome && p.blob_id.isSome && p.children.isEmpty

mutual

/-- Modelled from the spec: `validate(tree)` of the MIME Body Validator
(spec §4.1), checking the multipart invariants on every node of the tree.
Acyclicity is inherent in the inductive tree and blob-id syntax is not
modelled (no `JmapId` definition is under src/). -/
def EmailBodyPart.validate : EmailBodyPart → Bool
  | .mk pid bid sz hs nm ty cs dis cid lang loc subs =>
    (EmailBodyPart.mk pid bid sz hs nm ty cs dis cid lang loc subs).nodeOk &&
      (match subs with
       | none => true
       | some l => EmailBodyPart.validateList l)

/-- Validates each tree of a `sub_parts` list. -/
def EmailBodyPart.validateList : List EmailBodyPart → Bool
  | [] => true
  | p :: ps => EmailBodyPart.validate p && EmailBodyPart.validateList ps

end

mutual

/-- All nodes of an `EmailBodyPart` tree (the node itself and, recursively,
every node of every sub-part). -/
def EmailBodyPart.allNodes : EmailBodyPart → List EmailBodyPart
  | .mk pid bid sz hs nm ty cs dis cid lang loc subs =>
    EmailBodyPart.mk pid bid sz hs nm ty cs dis cid lang loc subs ::
      (match subs with
       | none => []
       | some l => EmailBodyPart.allNodesList l)

/-- All nodes of each tree in a `sub_parts` list. -/
def EmailBodyPart.allNodesList : List EmailBodyPart → List EmailBodyPart
  | [] => []
  | p :: ps => EmailBodyPart.allNodes p ++ EmailBodyPart.allNodesList ps

end

/-- The `multipart/mixed` tree of spec Scenario A: one `text/plain` child
with both ids present. -/
def scenarioA_leaf : EmailBodyPart :=
  .mk (some "p1") (some "blob1") 12 [] none "text/plain" (some "us-ascii")
    none none none none none

/-- Root of the Scenario A tree. -/
def scenarioA : EmailBodyPart :=
  .mk none none 0 [] none "multipart/mixed" none none none none none
    (some [scenarioA_leaf])

/-! ## Keyword normalization (mail.py module docstring, spec §3 Keyword and §4.3) -/

/-- Code points of the characters a keyword must not contain, from the
mail.py module docstring: `(` 0x28, `)` 0x29, left brace 0x7b, `]` 0x5d,
`%` 0x25, `*` 0x2a, `"` 0x22, backslash 0x5c. -/
def forbiddenKeywordCodes : List Nat :=
  [0x28, 0x29, 0x7b, 0x5d, 0x25, 0x2a, 0x22, 0x5c]

/-- A character usable in a keyword: in the ASCII subset 0x21-0x7e and not
in the forbidden set (mail.py module docstring). -/
def keywordCharOk (c : Char) : Bool :=
  decide (0x21 ≤ c.toNat) && decide (c.toNat ≤ 0x7e) &&
    !(forbiddenKeywordCodes.contains c.toNat)

/-- Python `str.lower` on one character, restricted to ASCII as Python is
on this range: `A`-`Z` (0x41-0x5a) maps 32 code points up, everything else
is fixed. -/
def lowerChar (c : Char) : Char :=
  if 0x41 ≤ c.toNat ∧ c.toNat ≤ 0x5a then Char.ofNat (c.toNat + 32) else c

/-- Python `str.lower` over a string modelled as its list of characters. -/
def lowerStr (l : List Char) : List Char :=
  l.map lowerChar

/-- Error kinds of the keyword normalizer (spec §4.3 / §7). -/
inductive KeywordErrorKind : Type where
  | tooLong : KeywordErrorKind
  | emptyKeyword : KeywordErrorKind
  | illegalCharacter : Char → KeywordErrorKind
deriving Repr, DecidableEq

/-- Modelled from the spec: `normalize(raw)` of the Keyword Normalizer
(spec §4.3; no normalizer code exists under src/, only the keyword rules in
the mail.py module docstring).  Steps: reject empty or length > 255; reject
any character outside the permitted ASCII printable range or inside the
forbidden set; lower-case the result.  Strings are modelled as lists of
characters. -/
def normalizeKeyword (raw : List Char) : Except KeywordErrorKind (List Char) :=
  if raw.length = 0 then
    .error .emptyKeyword
  else if raw.length > 255 then
    .error .tooLong
  else
    match raw.find? (fun c => !keywordCharOk c) with
    | some c => .error (.illegalCharacter c)
    | none => .ok (lowerStr raw)

/-! ## Email aggregate (mail.py lines 228-428) -/

/-- `Email` from mail.py.  Nullable spyne types become `Option`; the two
`AnyDict` set-objects `mailbox_ids` and `keywords` (id→bool per their
docstrings) become association lists; `body_values` (partId→EmailBodyValue)
likewise.  Dates (`UtcDate`, `DateTime`) are carried as their ISO string
representations. -/
structure Email where
  id : Option String
  blob_id : Option String
  thread_id : Option String
  mailbox_ids : List (String × Bool)
  keywords : List (String × Bool)
  size : Option Nat
  received_at : Option String
  message_id : Option (List String)
  in_reply_to : Option (List String)
  references : Option (List String)
  sender : Option (List EmailAddress)
  from_ : Option (List String)
  «to» : Option (List String)
  cc : Option (List String)
  bcc : Option (List String)
  reply_to : Option String
  subject : Option String
  sent_at : Option String
  body_structure : Option (List EmailBodyPart)
  body_values : List (String × EmailBodyValue)
  text_body : Option (List EmailBodyPart)
  html_body : Option (List EmailBodyPart)
  attachments : Option (List EmailBodyPart)
  has_attachment : Bool := false
  preview : String := ""

/-- spyne `default_factory` handling for `received_at` (mail.py lines
280-287): the factory yields the current server time as an ISO string and
is invoked only when the supplied value is absent — a supplied value, valid
or not, is passed through unchanged. -/
def Email.received_at_or_default (v : Option String) (now : String) : String :=
  v.getD now

/-- spyne `default` handling for `preview` (mail.py line 419,
`default=u''`): the empty string is used only when the value is absent. -/
def Email.preview_or_default (v : Option String) : String :=
  v.getD ""

/-- Value-level validation induced by the declared Email facets: the only
length-bounded field is `preview`, declared `Unicode(256)` (mail.py line
418). -/
def Email.validFacets (e : Email) : Bool :=
  decide (e.preview.length ≤ 256)

/-- Error kinds of `EmailInvariantError{kind}` (spec §7). -/
inductive EmailInvariantErrorKind : Type where
  | emptyMailboxSet
  | malformedMapValue
deriving Repr, DecidableEq

/-- Modelled from the spec: the committed-Email invariant (spec §3): the
`mailbox_ids` set is non-empty and every key in `mailbox_ids` and
`keywords` maps to the literal value `true`. -/
def Email.committedOk (e : Email) : Bool :=
  !e.mailbox_ids.isEmpty && e.mailbox_ids.all (fun kv => kv.2) &&
    e.keywords.all (fun kv => kv.2)

/-- Modelled from the spec: `remove_mailbox(id)` on a committed Email
(spec §4.4; no aggregate-mutation code exists under src/, only the
`mailboxIds` docstring): removal that would leave `mailbox_ids` empty is
rejected with `EmailInvariantError{EmptyMailboxSet}` unless the caller
signals destroy intent. -/
def Email.remove_mailbox (e : Email) (mb : String) (destroyIntent : Bool) :
    Except EmailInvariantErrorKind Email :=
  if (e.mailbox_ids.filter (fun kv => !(kv.1 == mb))).isEmpty && !destroyIntent then
    .error .emptyMailboxSet
  else
    .ok { e with mailbox_ids := e.mailbox_ids.filter (fun kv => !(kv.1 == mb)) }

/-- Modelled from the spec: `add_mailbox(id)` on a committed Email
(spec §4.4); the new key maps to the literal `true`. -/
def Email.add_mailbox (e : Email) (mb : String) : Email :=
  if e.mailbox_ids.any (fun kv => kv.1 == mb) then e
  else { e with mailbox_ids := e.mailbox_ids ++ [(mb, true)] }

/-! ## Declared field shapes of Email (mail.py `_type_info`) -/

/-- Shapes of the spyne type declarations appearing in `Email._type_info`. -/
inductive SpyneType : Type where
  | unicode (maxLen : Option Nat)
  | unsignedInteger
  | boolean
  | dateTime
  | utcDate
  | jmapId
  | anyDict
  | array (elem : SpyneType)
  | complex (typeName : String)
  | mandatory (t : SpyneType)
deriving Repr, DecidableEq

/-- `Email._type_info` from mail.py lines 229-428, member name and declared
shape, in declaration order.  In particular `sender` is
`Array(EmailAddress)` while `from_`, `to`, `cc` and `bcc` are
`Array(Unicode)` and `reply_to` is a plain `Unicode`. -/
def Email.type_info : List (String × SpyneType) := [
  ("id", .jmapId),
  ("blob_id", .jmapId),
  ("thread_id", .jmapId),
  ("mailbox_ids", .anyDict),
  ("keywords", .anyDict),
  ("size", .unsignedInteger),
  ("received_at", .utcDate),
  ("message_id", .array (.unicode none)),
  ("in_reply_to", .array (.unicode none)),
  ("references", .array (.unicode none)),
  ("sender", .array (.complex "EmailAddress")),
  ("from_", .array (.unicode none)),
  ("to", .array (.unicode none)),
  ("cc", .array (.unicode none)),
  ("bcc", .array (.unicode none)),
  ("reply_to", .unicode none),
  ("subject", .unicode none),
  ("sent_at", .dateTime),
  ("body_structure", .array (.complex "EmailBodyPart")),
  ("body_values", .anyDict),
  ("text_body", .array (.complex "EmailBodyPart")),
  ("html_body", .array (.complex "EmailBodyPart")),
  ("attachments", .array (.complex "EmailBodyPart")),
  ("has_attachment", .mandatory .boolean),
  ("preview", .unicode (some 256))]

/-! ## Capabilities (core.py) -/

/-- `CoreCapabilities` from core.py lines 17-65: seven nullable unsigned
integer limits and a nullable list of collation algorithm identifiers. -/
structure CoreCapabilities where
  max_size_upload : Option Nat
  max_concurrent_upload : Option Nat
  max_size_request : Option Nat
  max_concurrent_requests : Option Nat
  max_calls_in_request : Option Nat
  max_objects_in_get : Option Nat
  max_objects_in_set : Option Nat
  collation_algorithms : Option (List String)
deriving Repr, DecidableEq

/-- One field declaration of a spyne model: the member name and the
string-valued customization keyword arguments passed to the type. -/
structure FieldDecl where
  member : String
  kwargs : List (String × String)
deriving Repr, DecidableEq

/-- The field declarations of `CoreCapabilities._type_info` exactly as
written in core.py lines 17-65: every field passes its wire name under the
keyword `subname`. -/
def CoreCapabilities.field_decls : List FieldDecl := [
  ⟨"max_size_upload", [("subname", "maxSizeUpload")]⟩,
  ⟨"max_concurrent_upload", [("subname", "maxConcurrentUpload")]⟩,
  ⟨"max_size_request", [("subname", "maxSizeRequest")]⟩,
  ⟨"max_concurrent_requests", [("subname", "maxConcurrentRequests")]⟩,
  ⟨"max_calls_in_request", [("subname", "maxCallsInRequest")]⟩,
  ⟨"max_objects_in_get", [("subname", "maxObjectsInGet")]⟩,
  ⟨"max_objects_in_set", [("subname", "maxObjectsInSet")]⟩,
  ⟨"collation_algorithms", [("subname", "collationAlgorithms")]⟩]

/-- spyne's serialized name for a declared field: the recognized
customization key is `sub_name` (as used throughout mail.py and in
core.py's own `Capabilities.customize` call); when present it overrides
the member name, and any other keyword — such as the misspelling
`subname` — is stored as an unknown attribute that the serializers never
consult, so the member name is used. -/
def FieldDecl.serializedName (f : FieldDecl) : String :=
  match f.kwargs.lookup "sub_name" with
  | some n => n
  | none => f.member

/-- Protocol classes relevant to the per-protocol customization of
`Capabilities.core` (core.py lines 78-84). -/
inductive ProtocolClass : Type where
  | dictDocument
  | xmlDocument
deriving Repr, DecidableEq

/-- Whether a protocol class is dict-based (a spyne `DictDocument`). -/
def ProtocolClass.isDictBased : ProtocolClass → Bool
  | .dictDocument => true
  | .xmlDocument => false

/-- `Capabilities._type_info` from core.py lines 78-84: the single `core`
member is `CoreCapabilities.customize(pa={DictDocument:
dict(sub_name='urn:ietf:params:jmap:core')})`, so the URN sub-name applies
exactly to protocols that are instances of `DictDocument`; all others keep
the member name `core`. -/
def Capabilities.core_sub_name (p : ProtocolClass) : String :=
  if p.isDictBased then "urn:ietf:params:jmap:core" else "core"

/-! ## Request-limit enforcement (spec §4.5) -/

/-- Modelled from the spec: one parsed method call with its declared object
counts (spec §4.5/§6; no enforcement code exists under src/, only the
`maxObjectsInSet` docstring in core.py). -/
inductive MethodCall : Type where
  | getCall (requested : Nat)
  | setCall (created updated destroyed : Nat)
deriving Repr, DecidableEq

/-- `LimitViolation{limit_name, limit, observed}` (spec §4.5/§7). -/
structure LimitViolation where
  limit_name : String
  limit : Nat
  observed : Nat
deriving Repr, DecidableEq

/-- Modelled from the spec: a proposed batch as seen by the enforcer
(spec §4.5/§6): the ordered calls, the raw request byte size, the per-file
upload sizes and the reported concurrent-upload count. -/
structure Batch where
  calls : List MethodCall
  request_size : Nat
  upload_sizes : List Nat
  concurrent_uploads : Nat
deriving Repr, DecidableEq

/-- One limit check: a configured limit yields a violation iff the observed
value exceeds it; an unconfigured (null) limit restricts nothing. -/
def checkLimit (limit : Option Nat) (limitName : String) (observed : Nat) :
    List LimitViolation :=
  match limit with
  | none => []
  | some m => if observed > m then [⟨limitName, m, observed⟩] else []

/-- The violations contributed by a single method call. -/
def callViolations (caps : CoreCapabilities) : MethodCall → List LimitViolation
  | .getCall r => checkLimit caps.max_objects_in_get "maxObjectsInGet" r
  | .setCall c u d =>
    checkLimit caps.max_objects_in_set "maxObjectsInSet" (c + u + d)

/-- Modelled from the spec: `check_batch` of the Capability-Limit Enforcer
(spec §4.5): all checks are evaluated and every violation collected —
calls-per-request, per-get object count, per-set combined
created+updated+destroyed count, request size, per-file upload size and
concurrent uploads. -/
def check_batch (caps : CoreCapabilities) (batch : Batch) : List LimitViolation :=
  checkLimit caps.max_calls_in_request "maxCallsInRequest" batch.calls.length ++
    batch.calls.flatMap (callViolations caps) ++
    checkLimit caps.max_size_request "maxSizeRequest" batch.request_size ++
    batch.upload_sizes.flatMap (checkLimit caps.max_size_upload "maxSizeUpload") ++
    checkLimit caps.max_concurrent_upload "maxConcurrentUpload"
      batch.concurrent_uploads

/-- The Capabilities snapshot of spec Scenario D: `max_objects_in_set=10`,
all other limits unconfigured. -/
def scenarioD_caps : CoreCapabilities :=
  ⟨none, none, none, none, none, none, some 10, none⟩

/-- The batch of spec Scenario D: one set-call proposing `create=7,
destroy=6`. -/
def scenarioD_batch : Batch :=
  ⟨[.setCall 7 0 6], 0, [], 0⟩

/-- A committed Email for spec Scenario E: `mailbox_ids={"mb1": true}`. -/
def scenarioE_email : Email :=
  { id := some "e1", blob_id := some "b1", thread_id := some "t1",
    mailbox_ids := [("mb1", true)], keywords := [("$seen", true)],
    size := some 100, received_at := some "2020-01-01T00:00:00+00:00",
    message_id := none, in_reply_to := none, references := none,
    sender := none, from_ := none, «to» := none, cc := none, bcc := none,
    reply_to := none, subject := none, sent_at := none,
    body_structure := none, body_values := [], text_body := none,
    html_body := none, attachments := none }

/-! More definitions are inserted above this marker; theorems follow. -/

/-! ## Theorems -/

mutual

/-- Every node of a tree accepted by the validator passes the local
multipart checks. -/
theorem EmailBodyPart.validate_nodeOk :
    ∀ (t : EmailBodyPart), t.validate = true → ∀ p ∈ t.allNodes, p.nodeOk = true
  | .mk pid bid sz hs nm ty cs dis cid lang loc subs, h, p, hp => by
    rw [EmailBodyPart.validate.eq_def] at h
    rw [EmailBodyPart.allNodes.eq_def] at hp
    rcases List.mem_cons.mp hp with hroot | hrest
    · exact hroot ▸ (Bool.and_eq_true_iff.mp h).1
    · match subs with
      | none => simp at hrest
      | some l =>
        exact EmailBodyPart.validateList_nodeOk l (Bool.and_eq_true_iff.mp h).2 p hrest

/-- List version of `EmailBodyPart.validate_nodeOk`. -/
theorem EmailBodyPart.validateList_nodeOk :
    ∀ (l : List EmailBodyPart), EmailBodyPart.validateList l = true →
      ∀ p ∈ EmailBodyPart.allNodesList l, p.nodeOk = true
  | q :: qs, h, p, hp => by
    rw [EmailBodyPart.validateList] at h
    rw [EmailBodyPart.allNodesList] at hp
    rcases List.mem_append.mp hp with hq | hqs
    · exact EmailBodyPart.validate_nodeOk q (Bool.and_eq_true_iff.mp h).1 p hq
    · exact EmailBodyPart.validateList_nodeOk qs (Bool.and_eq_true_iff.mp h).2 p hqs

end

/-- The local check `nodeOk` is exactly the C1 invariant at one node. -/
theorem EmailBodyPart.nodeOk_spec (p : EmailBodyPart) (h : p.nodeOk = true) :
    (p.isMultipart = true ↔ p.part_id = none ∧ p.blob_id = none ∧ p.children ≠ []) ∧
      (p.isMultipart = false → p.part_id.isSome = true ∧ p.blob_id.isSome = true) := by
  unfold EmailBodyPart.nodeOk at h
  by_cases hm : p.isMultipart = true
  · rw [if_pos hm] at h
    simp only [Bool.and_eq_true_iff, decide_eq_true_eq, Bool.not_eq_true'] at h
    refine ⟨⟨fun _ => ⟨h.1.1, h.1.2, ?_⟩, fun _ => hm⟩, fun hc => absurd hm (by simp [hc])⟩
    intro hnil
    rw [hnil] at h
    simp at h
  · rw [if_neg hm] at h
    simp only [Bool.and_eq_true_iff, List.isEmpty_iff] at h
    constructor
    · constructor
      · intro h1; exact absurd h1 hm
      · rintro ⟨hpid, -, hne⟩
        rw [Option.isSome_iff_exists] at h
        rcases h.1.1 with ⟨x, hx⟩
        rw [hpid] at hx
        cases hx
    · intro _; exact ⟨h.1.1, h.1.2⟩

/-- C1: in every `EmailBodyPart` tree accepted by the body validator, a
part's `type` begins with `multipart/` iff its `part_id` is null, its
`blob_id` is null and its `sub_parts` sequence is non-empty; and every part
whose type does not begin with `multipart/` has both `part_id` and
`blob_id` present. -/
theorem bodyPart_multipart_invariant (t : EmailBodyPart) (h : t.validate = true) :
    ∀ p ∈ t.allNodes,
      (p.isMultipart = true ↔ p.part_id = none ∧ p.blob_id = none ∧ p.children ≠ []) ∧
        (p.isMultipart = false → p.part_id.isSome = true ∧ p.blob_id.isSome = true) :=
  fun p hp => EmailBodyPart.nodeOk_spec p (EmailBodyPart.validate_nodeOk t h p hp)

/-- Witness for C1 on the concrete Scenario A tree, instantiated at its
`text/plain` leaf. -/
theorem bodyPart_multipart_invariant_witness :
    scenarioA.validate = true ∧
      (scenarioA_leaf.isMultipart = true ↔
          scenarioA_leaf.part_id = none ∧ scenarioA_leaf.blob_id = none ∧
            scenarioA_leaf.children ≠ []) ∧
        (scenarioA_leaf.isMultipart = false →
          scenarioA_leaf.part_id.isSome = true ∧ scenarioA_leaf.blob_id.isSome = true) :=
  ⟨by simp [scenarioA, scenarioA_leaf, EmailBodyPart.validate.eq_def,
      EmailBodyPart.validateList.eq_def, EmailBodyPart.nodeOk, EmailBodyPart.isMultipart,
      strStartsWith, EmailBodyPart.part_id, EmailBodyPart.blob_id, EmailBodyPart.children,
      EmailBodyPart.subParts, EmailBodyPart.type],
    bodyPart_multipart_invariant scenarioA
      (by simp [scenarioA, scenarioA_leaf, EmailBodyPart.validate.eq_def,
        EmailBodyPart.validateList.eq_def, EmailBodyPart.nodeOk, EmailBodyPart.isMultipart,
        strStartsWith, EmailBodyPart.part_id, EmailBodyPart.blob_id, EmailBodyPart.children,
        EmailBodyPart.subParts, EmailBodyPart.type])
      scenarioA_leaf
      (by simp [scenarioA, scenarioA_leaf, EmailBodyPart.allNodes.eq_def,
        EmailBodyPart.allNodesList.eq_def])⟩

/-- `Char.ofNat` of a valid code point has that code point. -/
theorem char_toNat_ofNat_valid (n : Nat) (h : n.isValidChar) :
    (Char.ofNat n).toNat = n := by
  unfold Char.ofNat
  rw [dif_pos h]
  rfl

/-- Code point of `lowerChar`. -/
theorem lowerChar_toNat (c : Char) :
    (lowerChar c).toNat =
      if 0x41 ≤ c.toNat ∧ c.toNat ≤ 0x5a then c.toNat + 32 else c.toNat := by
  unfold lowerChar
  by_cases h : 0x41 ≤ c.toNat ∧ c.toNat ≤ 0x5a
  · rw [if_pos h, if_pos h]
    exact char_toNat_ofNat_valid _ (Or.inl (by omega))
  · rw [if_neg h, if_neg h]

/-- `keywordCharOk` unfolded to arithmetic over the code point. -/
theorem keywordCharOk_iff (c : Char) :
    keywordCharOk c = true ↔
      0x21 ≤ c.toNat ∧ c.toNat ≤ 0x7e ∧
        ¬(c.toNat = 0x28 ∨ c.toNat = 0x29 ∨ c.toNat = 0x7b ∨ c.toNat = 0x5d ∨
          c.toNat = 0x25 ∨ c.toNat = 0x2a ∨ c.toNat = 0x22 ∨ c.toNat = 0x5c) := by
  simp [keywordCharOk, forbiddenKeywordCodes, and_assoc]

/-- Lower-casing keeps a keyword character legal. -/
theorem lowerChar_ok (c : Char) (h : keywordCharOk c = true) :
    keywordCharOk (lowerChar c) = true := by
  rw [keywordCharOk_iff] at h ⊢
  rw [lowerChar_toNat]
  split <;> omega

/-- An illegal keyword character is a fixed point of `lowerChar` (all
forbidden and out-of-range code points lie outside `A`-`Z`). -/
theorem lowerChar_fixed_of_bad (c : Char) (h : ¬keywordCharOk c = true) :
    lowerChar c = c := by
  unfold lowerChar
  rw [if_neg]
  intro hr
  exact h (by rw [keywordCharOk_iff]; omega)

/-- `lowerChar` is idempotent. -/
theorem lowerChar_idem (c : Char) : lowerChar (lowerChar c) = lowerChar c := by
  have h1 := lowerChar_toNat c
  by_cases h : 0x41 ≤ c.toNat ∧ c.toNat ≤ 0x5a
  · rw [if_pos h] at h1
    have h2 : ¬(0x41 ≤ (lowerChar c).toNat ∧ (lowerChar c).toNat ≤ 0x5a) := by omega
    conv_lhs => rw [lowerChar]
    rw [if_neg h2]
  · have hfix : lowerChar c = c := by unfold lowerChar; rw [if_neg h]
    rw [hfix, hfix]

/-- `lowerChar` never produces an upper-case ASCII letter. -/
theorem lowerChar_not_upper (c : Char) :
    ¬(0x41 ≤ (lowerChar c).toNat ∧ (lowerChar c).toNat ≤ 0x5a) := by
  have h1 := lowerChar_toNat c
  by_cases h : 0x41 ≤ c.toNat ∧ c.toNat ≤ 0x5a
  · rw [if_pos h] at h1; omega
  · rw [if_neg h] at h1; omega

/-- The first illegal character of a string is unchanged by lower-casing
the string. -/
theorem find_bad_lowerStr (l : List Char) :
    (lowerStr l).find? (fun c => !keywordCharOk c) =
      l.find? (fun c => !keywordCharOk c) := by
  induction l with
  | nil => rfl
  | cons c cs ih =>
    by_cases h : keywordCharOk c = true
    · have h2 := lowerChar_ok c h
      simp [lowerStr, List.find?_cons, h, h2] at *
      exact ih
    · have hfix := lowerChar_fixed_of_bad c h
      rw [Bool.not_eq_true] at h
      simp [lowerStr, List.find?_cons, hfix, h]

/-- `normalizeKeyword` is insensitive to the case of its input. -/
theorem normalizeKeyword_lower (raw : List Char) :
    normalizeKeyword (lowerStr raw) = normalizeKeyword raw := by
  unfold normalizeKeyword
  rw [show (lowerStr raw).length = raw.length from List.length_map raw lowerChar]
  by_cases h0 : raw.length = 0
  · rw [if_pos h0, if_pos h0]
  · rw [if_neg h0, if_neg h0]
    by_cases h1 : raw.length > 255
    · rw [if_pos h1, if_pos h1]
    · rw [if_neg h1, if_neg h1, find_bad_lowerStr]
      cases hf : raw.find? (fun c => !keywordCharOk c) with
      | some c => rfl
      | none =>
        have : lowerStr (lowerStr raw) = lowerStr raw := by
          simp only [lowerStr, List.map_map]
          exact List.map_congr_left (fun c _ => lowerChar_idem c)
        rw [this]

/-- C3: keyword normalization is case-insensitive on input
(`normalize(lower(k)) = normalize(k)`), idempotent on every valid keyword
(`normalize` of a successful result succeeds with the same value), and a
successful result is all-lowercase, of length 1 to 255, with every
character in the permitted ASCII printable range. -/
theorem keyword_normalize_props :
    (∀ raw : List Char, normalizeKeyword (lowerStr raw) = normalizeKeyword raw) ∧
      ∀ (raw s : List Char), normalizeKeyword raw = .ok s →
        normalizeKeyword s = .ok s ∧
          1 ≤ s.length ∧ s.length ≤ 255 ∧
          (∀ c ∈ s, keywordCharOk c = true) ∧
          (∀ c ∈ s, ¬(0x41 ≤ c.toNat ∧ c.toNat ≤ 0x5a)) := by
  refine ⟨normalizeKeyword_lower, fun raw s h => ?_⟩
  unfold normalizeKeyword at h
  by_cases h0 : raw.length = 0
  · rw [if_pos h0] at h; cases h
  · rw [if_neg h0] at h
    by_cases h1 : raw.length > 255
    · rw [if_pos h1] at h; cases h
    · rw [if_neg h1] at h
      cases hf : raw.find? (fun c => !keywordCharOk c) with
      | some c => rw [hf] at h; cases h
      | none =>
        rw [hf] at h
        have hs : s = lowerStr raw := by cases h; rfl
        have hlen : s.length = raw.length := by
          rw [hs]; exact List.length_map raw lowerChar
        refine ⟨?_, by omega, by omega, ?_, ?_⟩
        · rw [hs, normalizeKeyword_lower]
          unfold normalizeKeyword
          rw [if_neg h0, if_neg (by omega), hf]
        · intro c hc
          rw [hs, lowerStr] at hc
          rcases List.mem_map.mp hc with ⟨c0, hc0, rfl⟩
          have := List.find?_eq_none.mp hf c0 hc0
          exact lowerChar_ok c0 (by simpa using this)
        · intro c hc
          rw [hs, lowerStr] at hc
          rcases List.mem_map.mp hc with ⟨c0, hc0, rfl⟩
          exact lowerChar_not_upper c0

/-- Witness for C3 at spec Scenario C: `normalize("$Seen")` succeeds with
`"$seen"`, and normalizing the result again returns it unchanged. -/
theorem keyword_normalize_props_witness :
    normalizeKeyword "$Seen".data = .ok "$seen".data ∧
      normalizeKeyword "$seen".data = .ok "$seen".data ∧
        1 ≤ "$seen".data.length ∧ "$seen".data.length ≤ 255 :=
  ⟨by rfl,
    (keyword_normalize_props.2 "$Seen".data "$seen".data (by rfl)).1,
    (keyword_normalize_props.2 "$Seen".data "$seen".data (by rfl)).2.1,
    (keyword_normalize_props.2 "$Seen".data "$seen".data (by rfl)).2.2.1⟩

/-- C2: committed-Email mailbox invariants over the spec-modelled aggregate
operations: `remove_mailbox` without destroy intent preserves the committed
invariant (in particular `mailbox_ids` stays non-empty and all-`true`);
removing the only mailbox without destroy intent is rejected with
`EmailInvariantError{EmptyMailboxSet}`; with destroy intent the removal is
accepted; `add_mailbox` preserves the invariant; and under the invariant
every key of `mailbox_ids` maps to the literal `true`. -/
theorem email_mailbox_invariant :
    (∀ (e : Email) (mb : String) (e' : Email),
        e.committedOk = true → e.remove_mailbox mb false = .ok e' →
          e'.committedOk = true) ∧
      (∀ (e : Email) (mb : String),
        e.mailbox_ids = [(mb, true)] →
          e.remove_mailbox mb false = .error .emptyMailboxSet) ∧
      (∀ (e : Email) (mb : String), ∃ e' : Email,
        e.remove_mailbox mb true = .ok e') ∧
      (∀ (e : Email) (mb : String),
        e.committedOk = true → (e.add_mailbox mb).committedOk = true) ∧
      (∀ e : Email, e.committedOk = true → ∀ kv ∈ e.mailbox_ids, kv.2 = true) := by
  refine ⟨?_, ?_, ?_, ?_, ?_⟩
  · intro e mb e' hok hrm
    unfold Email.remove_mailbox at hrm
    simp only [Bool.not_false, Bool.and_true] at hrm
    by_cases hre : (e.mailbox_ids.filter (fun kv => !(kv.1 == mb))).isEmpty
    · rw [if_pos hre] at hrm; cases hrm
    · rw [if_neg hre] at hrm
      have he' : e' = { e with
          mailbox_ids := e.mailbox_ids.filter (fun kv => !(kv.1 == mb)) } := by
        cases hrm; rfl
      subst he'
      simp only [Email.committedOk, Bool.and_eq_true, Bool.not_eq_true',
        List.all_eq_true] at hok ⊢
      refine ⟨⟨?_, ?_⟩, ?_⟩
      · exact Bool.not_eq_true _ ▸ (Bool.eq_false_iff.mpr hre)
      · intro kv hkv
        exact hok.1.2 kv (List.mem_filter.mp hkv).1
      · exact hok.2
  · intro e mb hone
    unfold Email.remove_mailbox
    rw [hone]
    simp
  · intro e mb
    refine ⟨{ e with
      mailbox_ids := e.mailbox_ids.filter (fun kv => !(kv.1 == mb)) }, ?_⟩
    unfold Email.remove_mailbox
    simp
  · intro e mb hok
    unfold Email.add_mailbox
    by_cases hmem : e.mailbox_ids.any (fun kv => kv.1 == mb)
    · rw [if_pos hmem]; exact hok
    · rw [if_neg hmem]
      simp only [Email.committedOk, Bool.and_eq_true, Bool.not_eq_true',
        List.all_eq_true] at hok ⊢
      refine ⟨⟨?_, ?_⟩, hok.2⟩
      · simp
      · intro kv hkv
        rcases List.mem_append.mp hkv with h1 | h2
        · exact hok.1.2 kv h1
        · simp only [List.mem_singleton] at h2
          rw [h2]
  · intro e hok kv hkv
    simp only [Email.committedOk, Bool.and_eq_true, List.all_eq_true] at hok
    exact hok.1.2 kv hkv

/-- Witness for C2 at spec Scenario E: the Email whose only mailbox is
`mb1` rejects `remove_mailbox("mb1")` without destroy intent. -/
theorem email_mailbox_invariant_witness :
    scenarioE_email.mailbox_ids = [("mb1", true)] ∧
      scenarioE_email.remove_mailbox "mb1" false =
        .error .emptyMailboxSet :=
  ⟨rfl, email_mailbox_invariant.2.1 scenarioE_email "mb1" rfl⟩

/-- C4: `check_batch` reports a `maxObjectsInSet` violation for every
set-like call whose combined created+updated+destroyed total exceeds the
configured `max_objects_in_set`; and on spec Scenario D
(`max_objects_in_set=10`, one set-call with `create=7, destroy=6`) it
returns exactly `LimitViolation{maxObjectsInSet, 10, 13}`. -/
theorem check_batch_set_limit :
    (∀ (caps : CoreCapabilities) (batch : Batch) (m c u d : Nat),
        caps.max_objects_in_set = some m →
        MethodCall.setCall c u d ∈ batch.calls →
        c + u + d > m →
        (⟨"maxObjectsInSet", m, c + u + d⟩ : LimitViolation) ∈
          check_batch caps batch) ∧
      check_batch scenarioD_caps scenarioD_batch =
        [⟨"maxObjectsInSet", 10, 13⟩] := by
  constructor
  · intro caps batch m c u d hm hmem hgt
    unfold check_batch
    refine List.mem_append.mpr (.inl (List.mem_append.mpr (.inl
      (List.mem_append.mpr (.inl (List.mem_append.mpr (.inr ?_)))))))
    refine List.mem_flatMap.mpr ⟨MethodCall.setCall c u d, hmem, ?_⟩
    simp [callViolations, checkLimit, hm, hgt]
  · rfl

/-- Witness for C4 at spec Scenario D. -/
theorem check_batch_set_limit_witness :
    scenarioD_caps.max_objects_in_set = some 10 ∧
      MethodCall.setCall 7 0 6 ∈ scenarioD_batch.calls ∧
      (⟨"maxObjectsInSet", 10, 13⟩ : LimitViolation) ∈
        check_batch scenarioD_caps scenarioD_batch :=
  ⟨rfl, by decide,
    check_batch_set_limit.1 scenarioD_caps scenarioD_batch 10 7 0 6 rfl
      (by decide) (by decide)⟩

/-- C5 (code evaluated at the failing input): because core.py passes the
wire names under the unrecognized keyword `subname` instead of spyne's
`sub_name`, every `CoreCapabilities` field serializes under its member
name; in particular `max_size_upload` does not serialize as
`maxSizeUpload`. -/
theorem coreCapabilities_serialized_names :
    CoreCapabilities.field_decls.map FieldDecl.serializedName =
      ["max_size_upload", "max_concurrent_upload", "max_size_request",
        "max_concurrent_requests", "max_calls_in_request",
        "max_objects_in_get", "max_objects_in_set", "collation_algorithms"] ∧
      "max_size_upload" ≠ "maxSizeUpload" := by
  exact ⟨rfl, by decide⟩

/-- C6 counterexample: on the address with `name = None` and
`address = "a"`, `is_empty` raises `TypeError` (modelled as `none`) instead
of returning a boolean, refuting the claim that it returns a boolean for
every combination with exactly one null field. -/
theorem emailAddress_is_empty_counterexample :
    ¬∃ b : Bool, (EmailAddress.mk none (some "a")).is_empty = some b := by
  decide

/-- C6 amended: `is_empty` returns `true` iff both fields are null or both
are empty strings; it fails to return (raises `TypeError`) exactly when
`name` is null while `address` is a string, or `name` is the empty string
while `address` is null; in every other case it returns a boolean. -/
theorem emailAddress_is_empty_characterization (a : EmailAddress) :
    (a.is_empty = some true ↔
        (a.name = none ∧ a.address = none) ∨
          (a.name = some "" ∧ a.address = some "")) ∧
      (a.is_empty = none ↔
        (a.name = none ∧ a.address ≠ none) ∨
          (a.name = some "" ∧ a.address = none)) := by
  obtain ⟨n, ad⟩ := a
  cases n with
  | none =>
    cases ad with
    | none => simp [EmailAddress.is_empty]
    | some t => simp [EmailAddress.is_empty]
  | some s =>
    cases ad with
    | none =>
      by_cases hs : s.length = 0
      · have : s = "" := by
          cases s with
          | mk l => cases l with
            | nil => rfl
            | cons c cs => simp [String.length] at hs
        simp [EmailAddress.is_empty, this]
      · have : s ≠ "" := by rintro rfl; simp at hs
        simp [EmailAddress.is_empty, hs, this]
    | some t =>
      by_cases hs : s.length = 0
      · have hse : s = "" := by
          cases s with
          | mk l => cases l with
            | nil => rfl
            | cons c cs => simp [String.length] at hs
        by_cases ht : t.length = 0
        · have hte : t = "" := by
            cases t with
            | mk l => cases l with
              | nil => rfl
              | cons c cs => simp [String.length] at ht
          simp [EmailAddress.is_empty, hse, hte]
        · have : t ≠ "" := by rintro rfl; simp at ht
          simp [EmailAddress.is_empty, hse, ht, this]
      · have : s ≠ "" := by rintro rfl; simp at hs
        simp [EmailAddress.is_empty, hs, this]

/-- Witness for C6's amended characterization at a concrete address. -/
theorem emailAddress_is_empty_characterization_witness :
    (EmailAddress.mk (some "") (some "")).is_empty = some true ∧
      (EmailAddress.mk (some "") none).is_empty = none :=
  ⟨(emailAddress_is_empty_characterization (EmailAddress.mk (some "") (some ""))).1.mpr
      (Or.inr ⟨rfl, rfl⟩),
    (emailAddress_is_empty_characterization (EmailAddress.mk (some "") none)).2.mpr
      (Or.inr ⟨rfl, rfl⟩)⟩

/-- C7: a missing `received_at` defaults to the server's current time
(the `default_factory` output); a supplied value — valid or not — is
returned unchanged, so defaulting applies only to absent values. -/
theorem received_at_defaulting :
    (∀ now : String, Email.received_at_or_default none now = now) ∧
      ∀ (v now : String), Email.received_at_or_default (some v) now = v :=
  ⟨fun _ => rfl, fun _ _ => rfl⟩

/-- Witness for C7: defaulting at a concrete creation time, and an invalid
supplied value passed through unchanged. -/
theorem received_at_defaulting_witness :
    Email.received_at_or_default none "2020-01-01T00:00:00+00:00" =
        "2020-01-01T00:00:00+00:00" ∧
      Email.received_at_or_default (some "not-a-date")
          "2020-01-01T00:00:00+00:00" = "not-a-date" :=
  ⟨received_at_defaulting.1 "2020-01-01T00:00:00+00:00",
    received_at_defaulting.2 "not-a-date" "2020-01-01T00:00:00+00:00"⟩

/-- C8: in `Email._type_info`, `sender` is declared as a sequence of
`EmailAddress` values while `from_`, `to`, `cc` and `bcc` are declared as
sequences of plain strings and `reply_to` as a single string. -/
theorem email_address_field_shapes :
    Email.type_info.lookup "sender" = some (.array (.complex "EmailAddress")) ∧
      Email.type_info.lookup "from_" = some (.array (.unicode none)) ∧
      Email.type_info.lookup "to" = some (.array (.unicode none)) ∧
      Email.type_info.lookup "cc" = some (.array (.unicode none)) ∧
      Email.type_info.lookup "bcc" = some (.array (.unicode none)) ∧
      Email.type_info.lookup "reply_to" = some (.unicode none) :=
  ⟨rfl, rfl, rfl, rfl, rfl, rfl⟩

/-- C9: under the declared facets, `preview` (declared `Unicode(256)`) has
length at most 256, and its declared default, applied when the value is
absent, is the empty string. -/
theorem email_preview_bounds :
    (∀ e : Email, e.validFacets = true → e.preview.length ≤ 256) ∧
      Email.preview_or_default none = "" ∧
      Email.type_info.lookup "preview" = some (.unicode (some 256)) :=
  ⟨fun e h => by simpa [Email.validFacets] using h, rfl, rfl⟩

/-- Witness for C9 on a concrete Email whose `preview` was defaulted. -/
theorem email_preview_bounds_witness :
    scenarioE_email.validFacets = true ∧ scenarioE_email.preview.length ≤ 256 :=
  ⟨by rfl, email_preview_bounds.1 scenarioE_email (by rfl)⟩

/-- C10: the `core` member of `Capabilities` is serialized under the key
`urn:ietf:params:jmap:core` for dict-based protocols only; every
non-dict-based protocol keeps the member name `core` (the URN would be an
invalid XML element name). -/
theorem capabilities_core_urn :
    Capabilities.core_sub_name .dictDocument = "urn:ietf:params:jmap:core" ∧
      ∀ p : ProtocolClass, p.isDictBased = false →
        Capabilities.core_sub_name p = "core" := by
  refine ⟨rfl, fun p hp => ?_⟩
  unfold Capabilities.core_sub_name
  rw [hp]
  rfl

/-- Witness for C10 at the XML protocol class. -/
theorem capabilities_core_urn_witness :
    ProtocolClass.xmlDocument.isDictBased = false ∧
      Capabilities.core_sub_name .xmlDocument = "core" :=
  ⟨rfl, capabilities_core_urn.2 .xmlDocument rfl⟩

end Jmapd
